import Mathlib

/-!
Shallow embedding of `src/midi_converter_script.py` (class `MidiConverter`).

Conventions used throughout:
* Python strings are Lean `String`s; `s[-1]` is `s.data.getLast?`,
  `s[:-1]` is `String.mk s.data.dropLast`, `len(s)` is `s.length`.
  (`str.isdigit` is modelled for the ASCII digits `'0'..'9'`; tokens are
  taken over the ASCII alphabet actually used by the script.)
* Python dicts read with `.get`/`in` are association lists with `List.lookup`.
* The beat values occurring in the script are the dyadic rationals
  0.5, 1.0, 2.0, 4.0, on which Python float arithmetic is exact, so beat
  counts are modelled as `ℚ` (the float literal `0.5` is `Rat.divInt 1 2`);
  `int(x)` is truncation toward zero, computed on `num/den` directly.
* A Python exception escaping a routine (the `ZeroDivisionError` raised by
  `bars // len(chords)` in `add_chord_progression` and by
  `i % len(rhythm_pattern)` in `add_melody` on empty lists) is modelled by
  an `Option` result: `none` means the call raises.
* `mido.Message` is modelled by `Message`, keeping exactly the fields the
  script sets: the message kind (`note_on` / `note_off`), channel, note,
  velocity and delta time.
-/

/-- One MIDI channel message as appended to a track by the script.
`isOn = true` is `note_on`, `isOn = false` is `note_off`. -/
structure Message where
  isOn : Bool
  channel : Nat
  note : Int
  velocity : Int
  time : Int
deriving DecidableEq

/-- Source constant `self.ticks_per_beat = 480`. -/
def ticks_per_beat : Int := 480

/-- Source `beats_to_ticks(beats) = int(beats * self.ticks_per_beat)`: the exact
product `beats * 480` truncated toward zero.  Truncation of `num/den * 480`
is computed directly as `tdiv (num * 480) den` (`den > 0`), which equals the
truncation of the normalized product. -/
def beats_to_ticks (beats : ℚ) : Int :=
  Int.tdiv (beats.num * ticks_per_beat) (beats.den : Int)

/-- The Python float literal `0.5` (exact). -/
def half : ℚ := Rat.divInt 1 2

/-- Source table `self.notes`: the note-name → MIDI-number table. -/
def notes : List (String × Int) :=
  [("C", 60), ("C#", 61), ("Db", 61), ("D", 62), ("D#", 63), ("Eb", 63),
   ("E", 64), ("F", 65), ("F#", 66), ("Gb", 66), ("G", 67), ("G#", 68),
   ("Ab", 68), ("A", 69), ("A#", 70), ("Bb", 70), ("B", 71)]

/-- Source table `self.chords`: chord-name → list of MIDI notes. -/
def chords : List (String × List Int) :=
  [("Dm", [62, 65, 69]), ("Bb", [70, 62, 65]), ("F", [65, 69, 60]),
   ("C", [60, 64, 67]), ("Gm", [67, 70, 62]), ("A7", [69, 61, 64, 67])]

/-- Source `note_name_to_midi(note_name)`.  Branches in source order:
empty / `'rest'` → 60; single character → direct table lookup with default 60;
otherwise, if the last character is a digit it is the octave and the rest is
the note name, else the whole token is the note name with octave 4; unknown
note names default to base 60; result is `base + (octave - 4) * 12` clamped
to `[0, 127]` by `max(0, min(127, .))`.  (The `except` arm of the source is
unreachable for ASCII tokens: `int` on a character already checked by
`isdigit` cannot fail.) -/
def note_name_to_midi (note_name : String) : Int :=
  if note_name = "" ∨ note_name = "rest" then 60
  else if note_name.length < 2 then (notes.lookup note_name).getD 60
  else if (note_name.data.getLast?.getD 'A').isDigit then
    max 0 (min 127 ((notes.lookup (String.mk note_name.data.dropLast)).getD 60 +
      (((note_name.data.getLast?.getD 'A').toNat : Int) - 48 - 4) * 12))
  else
    max 0 (min 127 ((notes.lookup note_name).getD 60 + ((4 : Int) - 4) * 12))

/-- Python `list * n` (n concatenated copies). -/
def list_mul {α : Type} (l : List α) (n : Nat) : List α :=
  (List.replicate n l).flatten

/-- Source expression `chord_sequence = (chords * (bars // len(chords) + 1))[:bars]`
in `add_chord_progression`. -/
def chord_sequence (cs : List String) (bars : Nat) : List String :=
  (list_mul cs (bars / cs.length + 1)).take bars

/-- The `note_on` loop of `add_chord_progression`: each chord note is
appended with the pending `current_time`, which is reset to 0 after the
first append. -/
def chord_on_msgs (vel : Int) : List Int → Int → List Message
  | [], _ => []
  | n :: rest, ct => ⟨true, 0, n, vel, ct⟩ :: chord_on_msgs vel rest 0

/-- The `note_off` loop of `add_chord_progression`: each chord note is
appended with velocity 0; the `hold_time` is carried by the first `note_off`
only and reset to 0 afterwards. -/
def chord_off_msgs : List Int → Int → List Message
  | [], _ => []
  | n :: rest, hold => ⟨false, 0, n, 0, hold⟩ :: chord_off_msgs rest 0

/-- The main loop of `add_chord_progression` over the (already cyclically
extended) chord sequence, carrying `current_time`.  A chord name present in
`chords` emits its `note_on`s, then its `note_off`s with a hold of
`beats_to_ticks(4)`, and resets `current_time` to 0; an unknown chord name
emits nothing and leaves `current_time` unchanged. -/
def chord_loop : List String → Int → Int → List Message
  | [], _, _ => []
  | c :: rest, vel, ct =>
    match chords.lookup c with
    | some ns =>
        chord_on_msgs vel ns ct ++ chord_off_msgs ns (beats_to_ticks 4) ++
          chord_loop rest vel 0
    | none => chord_loop rest vel ct

/-- Source `add_chord_progression(track, chords, bars, velocity, time_offset)`:
the list of messages appended to `track`.  `none` models the
`ZeroDivisionError` raised by `bars // len(chords)` when `chords` is empty. -/
def add_chord_progression (cs : List String) (bars : Nat)
    (velocity time_offset : Int) : Option (List Message) :=
  match cs with
  | [] => none
  | c :: rest =>
      some (chord_loop (chord_sequence (c :: rest) bars) velocity time_offset)

/-- The loop of `add_melody`, carrying the enumeration index `i` and
`current_time`.  A `'rest'` token adds its rhythm duration to `current_time`
and emits nothing; a pitched token emits `note_on` (channel 1, at
`current_time`) then `note_off` (velocity 0, after its rhythm duration) and
resets `current_time` to 0.  The rhythm index wraps modulo the rhythm
length. -/
def melody_loop (rhythm : List ℚ) (vel : Int) :
    List String → Nat → Int → List Message
  | [], _, _ => []
  | note_name :: rest, i, ct =>
    if note_name = "rest" then
      melody_loop rhythm vel rest (i + 1)
        (ct + beats_to_ticks ((rhythm.get? (i % rhythm.length)).getD 0))
    else
      ⟨true, 1, note_name_to_midi note_name, vel, ct⟩ ::
      ⟨false, 1, note_name_to_midi note_name, 0,
        beats_to_ticks ((rhythm.get? (i % rhythm.length)).getD 0)⟩ ::
      melody_loop rhythm vel rest (i + 1) 0

/-- Source `add_melody(track, melody_notes, rhythm_pattern, velocity, time_offset)`:
the list of messages appended to `track`.  `none` models the
`ZeroDivisionError` raised by `i % len(rhythm_pattern)` when the rhythm is
empty and at least one token is processed. -/
def add_melody (melody_notes : List String) (rhythm_pattern : List ℚ)
    (velocity time_offset : Int) : Option (List Message) :=
  match melody_notes, rhythm_pattern with
  | _ :: _, [] => none
  | mel, rhythm => some (melody_loop rhythm velocity mel 0 time_offset)

/-- The loop of `add_bass_line`, carrying `current_time`: every token is
treated as pitched, emitting `note_on` (channel 2, at `current_time`) then
`note_off` (velocity 0, after a whole note `beats_to_ticks(4)`), and
`current_time` resets to 0. -/
def bass_loop (vel : Int) : List String → Int → List Message
  | [], _ => []
  | note_name :: rest, ct =>
    ⟨true, 2, note_name_to_midi note_name, vel, ct⟩ ::
    ⟨false, 2, note_name_to_midi note_name, 0, beats_to_ticks 4⟩ ::
    bass_loop vel rest 0

/-- Source `add_bass_line(track, bass_notes, velocity, time_offset)`: the list of
messages appended to `track`.  Total: no failure path exists. -/
def add_bass_line (bass_notes : List String) (velocity time_offset : Int) :
    List Message :=
  bass_loop velocity bass_notes time_offset

/-- One value of the `section_data` dict in `create_section`. -/
structure SectionData where
  chords : List String
  melody : List String
  bass : List String
  velocity : Int
  rhythm : List ℚ
deriving DecidableEq

/-- Source `section_data['intro']`. -/
def intro_data : SectionData :=
  ⟨list_mul ["Dm", "Bb", "F", "C"] 2,
   list_mul ["D4", "F4", "G4", "F4", "D4", "C4", "D4", "D4"] 2,
   list_mul ["D2", "Bb1", "F1", "C2"] 2,
   60,
   [half, half, half, half, half, half, 1, 1]⟩

/-- Source `section_data['verse1']`. -/
def verse1_data : SectionData :=
  ⟨list_mul ["Dm", "Bb", "F", "C", "Dm", "Bb", "F", "A7"] 2,
   list_mul ["D4", "F4", "G4", "F4", "D4", "C4", "D4", "D4",
             "F4", "G4", "A4", "G4", "F4", "D4", "F4", "F4"] 1,
   list_mul ["D2", "Bb1", "F1", "C2", "D2", "Bb1", "F1", "A1"] 2,
   65,
   [1, half, half, 1, 1, half, half, 2]⟩

/-- Source `section_data['pre_chorus1']`. -/
def pre_chorus1_data : SectionData :=
  ⟨["Bb", "C", "Dm", "Dm", "Bb", "C", "F", "A7"],
   ["Bb4", "A4", "G4", "F4", "G4", "A4", "Bb4", "C5",
    "D5", "C5", "Bb4", "A4", "G4", "F4", "G4", "A4"],
   ["Bb1", "C2", "D2", "D2", "Bb1", "C2", "F1", "A1"],
   75,
   [half, half, half, half, half, half, 1, 1]⟩

/-- Source `section_data['chorus1']`. -/
def chorus1_data : SectionData :=
  ⟨list_mul ["Dm", "Bb", "F", "C", "Gm", "Bb", "F", "A7"] 2,
   list_mul ["D5", "F5", "G5", "F5", "D5", "C5", "D5", "D5",
             "Bb4", "C5", "D5", "F5", "G5", "A5", "F5", "D5"] 1,
   list_mul ["D2", "Bb1", "F1", "C2", "G1", "Bb1", "F1", "A1"] 2,
   100,
   [1, 1, half, half, 1, 1, 1, 1]⟩

/-- Source `section_data['verse2']`. -/
def verse2_data : SectionData :=
  ⟨list_mul ["Dm", "Bb", "F", "C", "Dm", "Bb", "F", "A7"] 2,
   list_mul ["D4", "F4", "G4", "F4", "D4", "C4", "D4", "D4",
             "F4", "G4", "A4", "G4", "F4", "D4", "F4", "F4"] 1,
   list_mul ["D2", "Bb1", "F1", "C2", "D2", "Bb1", "F1", "A1"] 2,
   70,
   [1, half, half, 1, 1, half, half, 2]⟩

/-- Source `section_data['pre_chorus2']`. -/
def pre_chorus2_data : SectionData :=
  ⟨["Bb", "C", "Dm", "Dm", "Bb", "C", "F", "A7"],
   ["Bb4", "A4", "G4", "F4", "G4", "A4", "Bb4", "C5",
    "D5", "C5", "Bb4", "A4", "G4", "F4", "G4", "A4"],
   ["Bb1", "C2", "D2", "D2", "Bb1", "C2", "F1", "A1"],
   85,
   [half, half, half, half, half, half, 1, 1]⟩

/-- Source `section_data['chorus2']`. -/
def chorus2_data : SectionData :=
  ⟨list_mul ["Dm", "Bb", "F", "C", "Gm", "Bb", "F", "A7"] 2,
   list_mul ["D5", "F5", "G5", "F5", "D5", "C5", "D5", "D5",
             "Bb4", "C5", "D5", "F5", "G5", "A5", "F5", "D5"] 1,
   list_mul ["D2", "Bb1", "F1", "C2", "G1", "Bb1", "F1", "A1"] 2,
   110,
   [1, 1, half, half, 1, 1, 1, 1]⟩

/-- Source `section_data['bridge']`. -/
def bridge_data : SectionData :=
  ⟨["Bb", "F", "C", "Dm", "Bb", "F", "A7", "A7", "Gm", "Bb", "C", "Dm"],
   ["F5", "G5", "A5", "Bb5", "A5", "G5", "F5", "F5",
    "A5", "G5", "F5", "D5", "F5", "G5", "A5", "Bb5"],
   ["Bb1", "F1", "C2", "D2", "Bb1", "F1", "A1", "A1", "G1", "Bb1", "C2", "D2"],
   95,
   [half, half, half, half, half, half, 1, 1]⟩

/-- Source `section_data['final_chorus']`. -/
def final_chorus_data : SectionData :=
  ⟨list_mul ["Dm", "Bb", "F", "C", "Gm", "Bb", "F", "A7"] 3,
   list_mul ["D5", "F5", "G5", "F5", "D5", "C5", "D5", "D5",
             "Bb4", "C5", "D5", "F5", "G5", "A5", "F5", "D5"] 3,
   list_mul ["D2", "Bb1", "F1", "C2", "G1", "Bb1", "F1", "A1"] 3,
   127,
   [1, 1, half, half, 1, 1, 1, 1]⟩

/-- Source `section_data['outro']`. -/
def outro_data : SectionData :=
  ⟨["Dm", "Bb", "F", "C", "Dm", "Dm"],
   ["D5", "F5", "G5", "F5", "D5", "D5"],
   ["D2", "Bb1", "F1", "C2", "D2", "D2"],
   60,
   [2, 2, 2, 2, 4, 4]⟩

/-- The `section_data` dict of `create_section`, in source order. -/
def section_data : List (String × SectionData) :=
  [("intro", intro_data), ("verse1", verse1_data),
   ("pre_chorus1", pre_chorus1_data), ("chorus1", chorus1_data),
   ("verse2", verse2_data), ("pre_chorus2", pre_chorus2_data),
   ("chorus2", chorus2_data), ("bridge", bridge_data),
   ("final_chorus", final_chorus_data), ("outro", outro_data)]

/-- Source `create_section(section_name, bars, start_time)
 = section_data.get(section_name, section_data['intro'])`.
The `bars` and `start_time` parameters are accepted and ignored, as in the
source. -/
def create_section (section_name : String) (bars : Nat) (start_time : Int) :
    SectionData :=
  (section_data.lookup section_name).getD intro_data

/-- Sum of the delta times (`time` fields) along a message stream. -/
def delta_sum (l : List Message) : Int := (l.map Message.time).sum

/-- Number of `note_on` messages in a stream. -/
def count_on (l : List Message) : Nat := (l.filter (fun m => m.isOn)).length

/-- Number of `note_off` messages in a stream. -/
def count_off (l : List Message) : Nat := (l.filter (fun m => !m.isOn)).length

/-- A stream strictly alternates `note_on, note_off, note_on, note_off, ...`
with each `note_on` immediately followed by its matching `note_off` (same
note, same channel). -/
def paired_alternating : List Message → Bool
  | [] => true
  | _ :: [] => false
  | a :: b :: rest =>
      a.isOn && !b.isOn && (a.note == b.note) && (a.channel == b.channel) &&
        paired_alternating rest

/-- Number of chord names of a sequence that are present in `chords`. -/
def known_count (seq : List String) : Nat :=
  (seq.filter (fun c => (chords.lookup c).isSome)).length

/-- The per-token melody durations in ticks: the rhythm sequence cycled
modulo its length along the melody token positions, each converted by
`beats_to_ticks`, summed. -/
def cycled_rhythm_ticks (mel : List String) (rhythm : List ℚ) : Int :=
  ((List.range mel.length).map
    (fun i => beats_to_ticks ((rhythm.get? (i % rhythm.length)).getD 0))).sum

/-! ## Helper lemmas -/

/-- A value returned by an association-list lookup is one of the list's
values. -/
theorem lookup_mem_values {α β : Type} [BEq α] (l : List (α × β)) (k : α)
    (v : β) (h : l.lookup k = some v) : v ∈ l.map Prod.snd := by
  induction l with
  | nil => simp [List.lookup] at h
  | cons a l ih =>
    obtain ⟨ka, va⟩ := a
    rw [List.lookup] at h
    rcases hk : k == ka with _ | _
    · rw [hk] at h
      simp only [List.map_cons, List.mem_cons]
      exact Or.inr (ih h)
    · rw [hk] at h
      simp only [Option.some.injEq] at h
      simp [h.symm]

/-- Every value of the note table, with the default 60, lies in `[0, 127]`. -/
theorem notes_values_bound (s : String) :
    0 ≤ (notes.lookup s).getD 60 ∧ (notes.lookup s).getD 60 ≤ 127 := by
  rcases h : notes.lookup s with _ | v
  · simp
  · have hv := lookup_mem_values _ _ _ h
    simp only [notes, List.map_cons, List.map_nil, List.mem_cons,
      List.not_mem_nil, or_false] at hv
    simp only [Option.getD_some]
    rcases hv with rfl | rfl | rfl | rfl | rfl | rfl | rfl | rfl | rfl | rfl |
      rfl | rfl | rfl | rfl | rfl | rfl | rfl <;> exact ⟨by norm_num, by norm_num⟩

/-! ## Claims -/

/-- Claim C1: for every string NoteToken `t`, `note_name_to_midi` returns a value
(it is a total Lean function, and the modelled `except` fallback never fires)
and the returned pitch code lies in `[0, 127]`. -/
theorem note_name_to_midi_in_range (t : String) :
    0 ≤ note_name_to_midi t ∧ note_name_to_midi t ≤ 127 := by
  unfold note_name_to_midi
  split_ifs with h1 h2 h3
  · exact ⟨by norm_num, by norm_num⟩
  · exact notes_values_bound t
  · exact ⟨le_max_left 0 _, max_le (by norm_num) (min_le_left _ _)⟩
  · exact ⟨le_max_left 0 _, max_le (by norm_num) (min_le_left _ _)⟩

/-- Claim C2 counterexample: the pitch resolver maps `"Bb1"` to
`70 + (1 - 4) * 12 = 34`, not to the claimed 46. -/
theorem resolver_Bb1_is_34_not_46 :
    note_name_to_midi "Bb1" = 34 ∧ note_name_to_midi "Bb1" ≠ 46 := by
  constructor
  · decide
  · decide

/-- Claim C2 (amended): the resolver returns 62 on `"D4"`, 74 on `"D5"`,
34 on `"Bb1"` (`70 + (1 - 4) * 12`), 60 on `"rest"` and 60 on `""`. -/
theorem resolver_five_examples :
    note_name_to_midi "D4" = 62 ∧ note_name_to_midi "D5" = 74 ∧
    note_name_to_midi "Bb1" = 34 ∧ note_name_to_midi "rest" = 60 ∧
    note_name_to_midi "" = 60 := by
  refine ⟨by decide, by decide, by decide, by decide, by decide⟩

/-- Claim C8: the melody stream of the `"outro"` section rendered with zero
initial offset has total delta time `(2+2+2+2+4+4) * ticks_per_beat
 = 16 * 480 = 7680` ticks. -/
theorem outro_melody_total_duration :
    delta_sum ((add_melody (create_section "outro" 8 0).melody
        (create_section "outro" 8 0).rhythm 70 0).getD []) = 7680 ∧
    beats_to_ticks (2 + 2 + 2 + 2 + 4 + 4) = 7680 := by
  constructor
  · decide
  · have h : (2 + 2 + 2 + 2 + 4 + 4 : ℚ) = 16 := by norm_num
    rw [h]; decide

/-- Claim C9: for every token of length at least 2 whose last character is a
digit, the resolver takes that single character as the octave and everything
before it as the note name; in particular `"C10"` is read as note name
`"C1"` (unknown, base 60) with octave 0, giving `60 + (0 - 4) * 12 = 12`. -/
theorem octave_is_single_last_char :
    (∀ s : String, 2 ≤ s.length → (s.data.getLast?.getD 'A').isDigit = true →
      note_name_to_midi s =
        max 0 (min 127 ((notes.lookup (String.mk s.data.dropLast)).getD 60 +
          (((s.data.getLast?.getD 'A').toNat : Int) - 48 - 4) * 12))) ∧
    note_name_to_midi "C10" = 12 := by
  constructor
  · intro s hlen hdig
    have hne : ¬(s = "" ∨ s = "rest") := by
      rintro (rfl | rfl)
      · exact absurd hlen (by decide)
      · exact absurd hdig (by decide)
    unfold note_name_to_midi
    rw [if_neg hne, if_neg (by omega), if_pos hdig]
  · decide

/-- Witness for C9 at the concrete token `"C10"`. -/
theorem octave_is_single_last_char_witness :
    note_name_to_midi "C10" =
      max 0 (min 127 ((notes.lookup (String.mk "C10".data.dropLast)).getD 60 +
        ((("C10".data.getLast?.getD 'A').toNat : Int) - 48 - 4) * 12)) :=
  octave_is_single_last_char.1 "C10" (by decide) (by decide)

/-- Claim C7: an unrecognized section name makes `create_section` return exactly
the `"intro"` section's data, so chord, melody and bass rendering of such a
section (with the velocities derived in `generate_midi` and the same bar
count and offset) coincide with rendering `"intro"`. -/
theorem create_section_unknown_is_intro (name : String) (bars : Nat)
    (st : Int) (h : section_data.lookup name = none) :
    create_section name bars st = create_section "intro" bars st ∧
    add_chord_progression (create_section name bars st).chords bars
        (create_section name bars st).velocity st =
      add_chord_progression (create_section "intro" bars st).chords bars
        (create_section "intro" bars st).velocity st ∧
    add_melody (create_section name bars st).melody
        (create_section name bars st).rhythm
        (min ((create_section name bars st).velocity + 10) 127) st =
      add_melody (create_section "intro" bars st).melody
        (create_section "intro" bars st).rhythm
        (min ((create_section "intro" bars st).velocity + 10) 127) st ∧
    add_bass_line (create_section name bars st).bass
        (max 50 ((create_section name bars st).velocity - 15)) st =
      add_bass_line (create_section "intro" bars st).bass
        (max 50 ((create_section "intro" bars st).velocity - 15)) st := by
  have he : create_section name bars st = create_section "intro" bars st := by
    unfold create_section
    rw [h]
    rfl
  exact ⟨he, by rw [he], by rw [he], by rw [he]⟩

/-- Witness for C7 at the concrete unknown name `"interlude"`. -/
theorem create_section_unknown_is_intro_witness :
    create_section "interlude" 4 0 = create_section "intro" 4 0 :=
  (create_section_unknown_is_intro "interlude" 4 0 (by decide)).1

/-- Claim C6 counterexample: with an empty chord-name sequence
`add_chord_progression` raises (the `ZeroDivisionError` of
`bars // len(chords)`), and with a non-empty melody and an empty rhythm
sequence `add_melody` raises; so not every input is exception-free. -/
theorem render_raises_on_empty_input :
    add_chord_progression [] 4 80 0 = none ∧
    add_melody ["D4"] [] 90 0 = none :=
  ⟨rfl, rfl⟩

/-- Length of the bass stream: two messages per token. -/
theorem bass_loop_length (vel : Int) : ∀ (bs : List String) (ct : Int),
    (bass_loop vel bs ct).length = 2 * bs.length
  | [], _ => rfl
  | _ :: rest, ct => by
    simp only [bass_loop, List.length_cons, bass_loop_length vel rest 0,
      List.length_cons]
    ring

/-- Claim C6 (amended): `add_bass_line` never raises (and emits two messages per
token, unknown names included); `add_chord_progression` never raises
provided the chord-name sequence is non-empty; `add_melody` never raises
provided the rhythm sequence is non-empty whenever the token sequence is. -/
theorem render_no_exception_amended :
    (∀ (cs : List String) (bars : Nat) (vel t : Int), cs ≠ [] →
      (add_chord_progression cs bars vel t).isSome = true) ∧
    (∀ (mel : List String) (ry : List ℚ) (vel t : Int),
      (mel ≠ [] → ry ≠ []) → (add_melody mel ry vel t).isSome = true) ∧
    (∀ (bs : List String) (vel t : Int),
      (add_bass_line bs vel t).length = 2 * bs.length) := by
  refine ⟨?_, ?_, ?_⟩
  · intro cs bars vel t h
    match cs with
    | [] => exact absurd rfl h
    | c :: rest => rfl
  · intro mel ry vel t h
    match mel, ry with
    | [], _ => rfl
    | _ :: _, [] => exact absurd rfl (h (by simp))
    | _ :: _, _ :: _ => rfl
  · intro bs vel t
    exact bass_loop_length vel bs t

/-- Witness for C6 (amended) at concrete inputs. -/
theorem render_no_exception_amended_witness :
    (add_chord_progression ["Dm"] 2 80 0).isSome = true ∧
    (add_melody ["D4"] [1] 90 0).isSome = true ∧
    (add_bass_line ["D2", "zz"] 85 0).length =
      2 * (["D2", "zz"] : List String).length :=
  ⟨render_no_exception_amended.1 ["Dm"] 2 80 0 (by simp),
   render_no_exception_amended.2.1 ["D4"] [1] 90 0 (fun _ => by simp),
   render_no_exception_amended.2.2 ["D2", "zz"] 85 0⟩

/-- The melody loop emits strictly alternating on/off pairs. -/
theorem melody_loop_alternating (ry : List ℚ) (vel : Int) :
    ∀ (mel : List String) (i : Nat) (ct : Int),
      paired_alternating (melody_loop ry vel mel i ct) = true
  | [], _, _ => rfl
  | name :: rest, i, ct => by
    rw [melody_loop]
    split
    · exact melody_loop_alternating ry vel rest (i + 1) _
    · simp only [paired_alternating]
      simp [melody_loop_alternating ry vel rest (i + 1) 0]

/-- The bass loop emits strictly alternating on/off pairs. -/
theorem bass_loop_alternating (vel : Int) : ∀ (bs : List String) (ct : Int),
    paired_alternating (bass_loop vel bs ct) = true
  | [], _ => rfl
  | _ :: rest, ct => by
    simp only [bass_loop, paired_alternating]
    simp [bass_loop_alternating vel rest 0]

/-- An alternating stream has as many `note_on`s as `note_off`s. -/
theorem paired_counts : ∀ (l : List Message), paired_alternating l = true →
    count_on l = count_off l
  | [], _ => rfl
  | [_], h => by simp [paired_alternating] at h
  | a :: b :: rest, h => by
    simp only [paired_alternating, Bool.and_eq_true, Bool.not_eq_true'] at h
    obtain ⟨⟨⟨⟨ha, hb⟩, -⟩, -⟩, hrest⟩ := h
    have ih := paired_counts rest hrest
    simp only [count_on, count_off] at ih ⊢
    simp [List.filter_cons, ha, hb, ih]

/-- Claim C5: every melody stream (when `add_melody` does not raise) and every
bass stream strictly alternates `note_on`/`note_off` with each `note_on`
immediately followed by its matching `note_off`, and the number of
`note_on`s equals the number of `note_off`s. -/
theorem melody_bass_streams_paired :
    (∀ (mel : List String) (ry : List ℚ) (vel t : Int) (es : List Message),
      add_melody mel ry vel t = some es →
        paired_alternating es = true ∧ count_on es = count_off es) ∧
    (∀ (bs : List String) (vel t : Int),
      paired_alternating (add_bass_line bs vel t) = true ∧
      count_on (add_bass_line bs vel t) = count_off (add_bass_line bs vel t)) := by
  constructor
  · intro mel ry vel t es h
    have hes : es = melody_loop ry vel mel 0 t := by
      match mel, ry with
      | [], ry => exact (Option.some.inj h).symm
      | _ :: _, [] => exact Option.noConfusion h
      | _ :: _, _ :: _ => exact (Option.some.inj h).symm
    subst hes
    exact ⟨melody_loop_alternating ry vel mel 0 t,
      paired_counts _ (melody_loop_alternating ry vel mel 0 t)⟩
  · intro bs vel t
    exact ⟨bass_loop_alternating vel bs t,
      paired_counts _ (bass_loop_alternating vel bs t)⟩

/-- Witness for C5 at a concrete melody stream. -/
theorem melody_bass_streams_paired_witness :
    paired_alternating (melody_loop [1] 90 ["D4"] 0 0) = true ∧
    count_on (melody_loop [1] 90 ["D4"] 0 0) =
      count_off (melody_loop [1] 90 ["D4"] 0 0) :=
  melody_bass_streams_paired.1 ["D4"] [1] 90 0
    (melody_loop [1] 90 ["D4"] 0 0) rfl

/-- Length of `list_mul`. -/
theorem list_mul_length {α : Type} (l : List α) (n : Nat) :
    (list_mul l n).length = n * l.length := by
  simp [list_mul, List.length_flatten, List.map_replicate, List.sum_replicate,
    smul_eq_mul]

/-- For a non-empty chord list the cyclically extended sequence has exactly
`bars` entries. -/
theorem chord_sequence_length (cs : List String) (bars : Nat) (h : cs ≠ []) :
    (chord_sequence cs bars).length = bars := by
  have hL : 0 < cs.length := List.length_pos.mpr h
  have hlt : bars < bars / cs.length * cs.length + cs.length :=
    Nat.lt_div_mul_add hL
  have hle : bars ≤ (bars / cs.length + 1) * cs.length := by
    rw [Nat.add_mul, Nat.one_mul]
    exact Nat.le_of_lt hlt
  unfold chord_sequence
  rw [List.length_take, list_mul_length]
  exact min_eq_left hle

/-- Indexing into a flattened replication is indexing the base list at the
index modulo the base length. -/
theorem flatten_replicate_getElem (cs : List String) : ∀ (n i : Nat),
    i < n * cs.length →
    ((List.replicate n cs).flatten)[i]? = cs[i % cs.length]?
  | 0, i => by
    intro hi
    simp at hi
  | n + 1, i => by
    intro hi
    rw [List.replicate_succ, List.flatten_cons]
    by_cases hlt : i < cs.length
    · rw [List.getElem?_append_left hlt, Nat.mod_eq_of_lt hlt]
    · push_neg at hlt
      rw [List.getElem?_append_right hlt]
      have hsub : i - cs.length < n * cs.length := by
        rw [Nat.succ_mul] at hi
        omega
      rw [flatten_replicate_getElem cs n (i - cs.length) hsub]
      congr 1
      conv_rhs => rw [show i = i - cs.length + cs.length from
        (Nat.sub_add_cancel hlt).symm]
      rw [Nat.add_mod_right]

/-- The `i`-th chord of the extended sequence is `chords[i % len(chords)]`. -/
theorem chord_sequence_getElem (cs : List String) (bars : Nat) (h : cs ≠ [])
    (i : Nat) (hi : i < bars) :
    (chord_sequence cs bars)[i]? = cs[i % cs.length]? := by
  have hL : 0 < cs.length := List.length_pos.mpr h
  have hlt : bars < bars / cs.length * cs.length + cs.length :=
    Nat.lt_div_mul_add hL
  have hi2 : i < (bars / cs.length + 1) * cs.length := by
    rw [Nat.add_mul, Nat.one_mul]
    exact Nat.lt_trans hi hlt
  unfold chord_sequence list_mul
  rw [List.getElem?_take, if_pos hi]
  exact flatten_replicate_getElem cs _ i hi2

/-- Additivity of `count_on` over append. -/
theorem count_on_append (l₁ l₂ : List Message) :
    count_on (l₁ ++ l₂) = count_on l₁ + count_on l₂ := by
  simp [count_on, List.filter_append]

/-- Additivity of `count_off` over append. -/
theorem count_off_append (l₁ l₂ : List Message) :
    count_off (l₁ ++ l₂) = count_off l₁ + count_off l₂ := by
  simp [count_off, List.filter_append]

/-- Additivity of `delta_sum` over append. -/
theorem delta_sum_append (l₁ l₂ : List Message) :
    delta_sum (l₁ ++ l₂) = delta_sum l₁ + delta_sum l₂ := by
  simp [delta_sum]

/-- The `note_on` block of a chord has one `note_on` per pitch. -/
theorem chord_on_msgs_count_on (vel : Int) : ∀ (ns : List Int) (ct : Int),
    count_on (chord_on_msgs vel ns ct) = ns.length
  | [], _ => rfl
  | n :: rest, ct => by
    have ih := chord_on_msgs_count_on vel rest 0
    simp only [chord_on_msgs, count_on, List.filter_cons] at ih ⊢
    simp [ih]

/-- The `note_on` block of a chord has no `note_off`s. -/
theorem chord_on_msgs_count_off (vel : Int) : ∀ (ns : List Int) (ct : Int),
    count_off (chord_on_msgs vel ns ct) = 0
  | [], _ => rfl
  | n :: rest, ct => by
    have ih := chord_on_msgs_count_off vel rest 0
    simp only [chord_on_msgs, count_off, List.filter_cons] at ih ⊢
    simp [ih]

/-- The `note_off` block of a chord has no `note_on`s. -/
theorem chord_off_msgs_count_on : ∀ (ns : List Int) (hold : Int),
    count_on (chord_off_msgs ns hold) = 0
  | [], _ => rfl
  | n :: rest, hold => by
    have ih := chord_off_msgs_count_on rest 0
    simp only [chord_off_msgs, count_on, List.filter_cons] at ih ⊢
    simp [ih]

/-- The `note_off` block of a chord has one `note_off` per pitch. -/
theorem chord_off_msgs_count_off : ∀ (ns : List Int) (hold : Int),
    count_off (chord_off_msgs ns hold) = ns.length
  | [], _ => rfl
  | n :: rest, hold => by
    have ih := chord_off_msgs_count_off rest 0
    simp only [chord_off_msgs, count_off, List.filter_cons] at ih ⊢
    simp [ih]

/-- On/off counts of the chord loop: one begin and one end per pitch of each
recognized chord, nothing for unknown names. -/
theorem chord_loop_counts : ∀ (seq : List String) (vel ct : Int),
    count_on (chord_loop seq vel ct) =
      (seq.map (fun c => ((chords.lookup c).getD []).length)).sum ∧
    count_off (chord_loop seq vel ct) =
      (seq.map (fun c => ((chords.lookup c).getD []).length)).sum
  | [], _, _ => ⟨rfl, rfl⟩
  | c :: rest, vel, ct => by
    rcases hc : chords.lookup c with _ | ns
    · have ih := chord_loop_counts rest vel ct
      simp only [chord_loop, hc, List.map_cons, List.sum_cons, Option.getD_none,
        List.length_nil, Nat.zero_add]
      exact ih
    · have ih := chord_loop_counts rest vel 0
      simp only [chord_loop, hc, List.map_cons, List.sum_cons, Option.getD_some]
      rw [count_on_append, count_on_append, count_off_append, count_off_append,
        chord_on_msgs_count_on, chord_on_msgs_count_off,
        chord_off_msgs_count_on, chord_off_msgs_count_off, ih.1, ih.2]
      omega

/-- Claim C4: for every non-empty chord-name sequence and bar count,
`add_chord_progression` succeeds, processes exactly `bars` chords obtained by
cyclic repetition and truncation of the sequence (the `i`-th processed chord
is `cs[i % len(cs)]`), and the stream holds one `note_on` and one `note_off`
per pitch of each chord name found in the chord table, with unknown chord
names contributing zero messages. -/
theorem chord_rendering_cyclic (cs : List String) (bars : Nat)
    (vel t : Int) (h : cs ≠ []) :
    ∃ es, add_chord_progression cs bars vel t = some es ∧
      (chord_sequence cs bars).length = bars ∧
      (∀ i, i < bars → (chord_sequence cs bars)[i]? = cs[i % cs.length]?) ∧
      count_on es = ((chord_sequence cs bars).map
        (fun c => ((chords.lookup c).getD []).length)).sum ∧
      count_off es = ((chord_sequence cs bars).map
        (fun c => ((chords.lookup c).getD []).length)).sum := by
  match cs, h with
  | c :: rest, _ =>
    refine ⟨chord_loop (chord_sequence (c :: rest) bars) vel t, rfl,
      chord_sequence_length _ bars (by simp), ?_,
      (chord_loop_counts _ vel t).1, (chord_loop_counts _ vel t).2⟩
    intro i hi
    exact chord_sequence_getElem _ bars (by simp) i hi

/-- Witness for C4 at the concrete sequence `["Dm", "X"]` over 3 bars. -/
theorem chord_rendering_cyclic_witness :
    ∃ es, add_chord_progression ["Dm", "X"] 3 80 0 = some es ∧
      (chord_sequence ["Dm", "X"] 3).length = 3 ∧
      (∀ i, i < 3 → (chord_sequence ["Dm", "X"] 3)[i]? =
        (["Dm", "X"] : List String)[i % (["Dm", "X"] : List String).length]?) ∧
      count_on es = ((chord_sequence ["Dm", "X"] 3).map
        (fun c => ((chords.lookup c).getD []).length)).sum ∧
      count_off es = ((chord_sequence ["Dm", "X"] 3).map
        (fun c => ((chords.lookup c).getD []).length)).sum :=
  chord_rendering_cyclic ["Dm", "X"] 3 80 0 (by simp)

/-- Every chord of the chord table has at least one pitch. -/
theorem chords_values_nonempty (c : String) (ns : List Int)
    (h : chords.lookup c = some ns) : ns.isEmpty = false := by
  have hv := lookup_mem_values _ _ _ h
  simp only [chords, List.map_cons, List.map_nil, List.mem_cons,
    List.not_mem_nil, or_false] at hv
  rcases hv with rfl | rfl | rfl | rfl | rfl | rfl <;> rfl

/-- Delta-time sum of a chord's `note_on` block: the pending offset is
emitted once (by the first message) when the block is non-empty. -/
theorem chord_on_msgs_delta_sum (vel : Int) : ∀ (ns : List Int) (ct : Int),
    delta_sum (chord_on_msgs vel ns ct) = if ns.isEmpty then 0 else ct
  | [], _ => rfl
  | n :: rest, ct => by
    have ih := chord_on_msgs_delta_sum vel rest 0
    simp only [chord_on_msgs, delta_sum, List.map_cons, List.sum_cons] at ih ⊢
    rw [ih]
    cases rest <;> simp

/-- Delta-time sum of a chord's `note_off` block: the hold duration is
emitted once when the block is non-empty. -/
theorem chord_off_msgs_delta_sum : ∀ (ns : List Int) (hold : Int),
    delta_sum (chord_off_msgs ns hold) = if ns.isEmpty then 0 else hold
  | [], _ => rfl
  | n :: rest, hold => by
    have ih := chord_off_msgs_delta_sum rest 0
    simp only [chord_off_msgs, delta_sum, List.map_cons, List.sum_cons] at ih ⊢
    rw [ih]
    cases rest <;> simp

/-- A recognized chord name increments `known_count`. -/
theorem known_count_cons_known (c : String) (rest : List String)
    (h : (chords.lookup c).isSome = true) :
    known_count (c :: rest) = known_count rest + 1 := by
  simp [known_count, List.filter_cons, h]

/-- An unknown chord name leaves `known_count` unchanged. -/
theorem known_count_cons_unknown (c : String) (rest : List String)
    (h : chords.lookup c = none) :
    known_count (c :: rest) = known_count rest := by
  simp [known_count, List.filter_cons, h]

/-- Delta-time sum of the chord loop: one whole-note hold per recognized
chord, plus the initial offset if at least one chord is recognized. -/
theorem chord_loop_delta_sum : ∀ (seq : List String) (vel ct : Int),
    delta_sum (chord_loop seq vel ct) =
      beats_to_ticks 4 * (known_count seq : Int) +
        (if known_count seq = 0 then 0 else ct)
  | [], _, _ => by simp [chord_loop, known_count, delta_sum]
  | c :: rest, vel, ct => by
    rcases hc : chords.lookup c with _ | ns
    · rw [known_count_cons_unknown c rest hc]
      have ih := chord_loop_delta_sum rest vel ct
      simp only [chord_loop, hc]
      exact ih
    · have hne := chords_values_nonempty c ns hc
      rw [known_count_cons_known c rest (by rw [hc]; rfl)]
      have ih := chord_loop_delta_sum rest vel 0
      simp only [chord_loop, hc]
      rw [delta_sum_append, delta_sum_append, chord_on_msgs_delta_sum,
        chord_off_msgs_delta_sum, ih, hne]
      rw [if_neg (Nat.succ_ne_zero (known_count rest))]
      simp only [Bool.false_eq_true, if_false, ite_self]
      push_cast
      ring

/-- Claim C10: a skipped unknown chord name contributes no messages and advances
time by zero, carrying the pending offset unchanged to the next recognized
chord; consequently the chord stream's total delta time is one whole-note
hold (`beats_to_ticks(4)` ticks) per recognized chord only — one bar shorter
for every unknown name — plus the initial offset when some chord is
recognized. -/
theorem unknown_chord_zero_advance :
    (∀ (c : String) (rest : List String) (vel ct : Int),
      chords.lookup c = none →
        chord_loop (c :: rest) vel ct = chord_loop rest vel ct) ∧
    (∀ (seq : List String) (vel ct : Int),
      delta_sum (chord_loop seq vel ct) =
        beats_to_ticks 4 * (known_count seq : Int) +
          (if known_count seq = 0 then 0 else ct)) := by
  constructor
  · intro c rest vel ct hc
    simp only [chord_loop, hc]
  · exact chord_loop_delta_sum

/-- Witness for C10 at the concrete stream `["X", "Dm"]` with offset 7. -/
theorem unknown_chord_zero_advance_witness :
    chord_loop ["X", "Dm"] 80 7 = chord_loop ["Dm"] 80 7 ∧
    delta_sum (chord_loop ["X", "Dm"] 80 7) =
      beats_to_ticks 4 * (known_count ["X", "Dm"] : Int) +
        (if known_count ["X", "Dm"] = 0 then 0 else 7) :=
  ⟨unknown_chord_zero_advance.1 "X" ["Dm"] 80 7 (by decide),
   unknown_chord_zero_advance.2 ["X", "Dm"] 80 7⟩

/-- Claim C3 counterexample: for the `"intro"` section the melody stream rendered
with zero initial offset has total delta time 4800 ticks (16 tokens cycling
the 8-entry rhythm twice), while the sum of the section's rhythm-duration
sequence is 5 beats, i.e. `2400` ticks: the two differ. -/
theorem intro_melody_delta_sum_mismatch :
    delta_sum ((add_melody (create_section "intro" 8 0).melody
        (create_section "intro" 8 0).rhythm 70 0).getD []) ≠
      beats_to_ticks (create_section "intro" 8 0).rhythm.sum := by
  have h1 : delta_sum ((add_melody (create_section "intro" 8 0).melody
      (create_section "intro" 8 0).rhythm 70 0).getD []) = 4800 := by decide
  have he : create_section "intro" 8 0 = intro_data := rfl
  have h2 : (create_section "intro" 8 0).rhythm.sum = 5 := by
    rw [he]
    simp [intro_data, half, List.sum, Rat.divInt_eq_div]
    norm_num
  rw [h1, h2]
  decide

set_option maxRecDepth 4000 in
/-- Claim C3 (amended): for every section — any name, unknown ones falling back to
intro — the melody stream rendered with zero initial offset has total delta
time equal to the sum of the rhythm durations assigned to the melody tokens,
i.e. the rhythm sequence cycled modulo its length along the melody, each
converted by `beats_to_ticks`. -/
theorem melody_delta_sum_eq_cycled (name : String) (bars : Nat) (st : Int) :
    delta_sum ((add_melody (create_section name bars st).melody
        (create_section name bars st).rhythm
        (min ((create_section name bars st).velocity + 10) 127) 0).getD []) =
      cycled_rhythm_ticks (create_section name bars st).melody
        (create_section name bars st).rhythm := by
  have hc : create_section name bars st =
      (section_data.lookup name).getD intro_data := rfl
  rcases h : section_data.lookup name with _ | sd
  · rw [hc, h]
    decide
  · have hv := lookup_mem_values _ _ _ h
    rw [hc, h]
    simp only [section_data, List.map_cons, List.map_nil, List.mem_cons,
      List.not_mem_nil, or_false] at hv
    rcases hv with rfl | rfl | rfl | rfl | rfl | rfl | rfl | rfl | rfl | rfl <;>
      decide
